import Mathlib

/-!
Verification of the minimal tennis Discord bot (`bot.py` and
`MinimalTennisBot/bot.py`).

The news subsystem is embedded shallowly:
  * the stored file `update.txt` is modelled as an `Option String`
    (`none` = file absent, `some c` = file exists with contents `c`);
  * Python `str.replace(old, new)` (replace every non-overlapping
    occurrence, scanning left to right) is modelled by `listReplace`
    on `List Char`, written with explicit fuel so that the kernel can
    evaluate it on concrete inputs;
  * Python `str.strip()` is modelled by `pyStrip` (drop the code points
    CPython's `str.isspace()` accepts, from both ends);
  * `load_news`, `save_news`, `set_news` and the startup token check
    are translated line by line from the source.
-/

/-! # Definitions -/

/-- Fuel-driven worker for `listReplace`.  One unit of fuel is spent per
scanned position; `fuel = s.length` always suffices because every step
consumes at least one character of `s`. -/
def listReplaceAux (pat rep : List Char) : Nat → List Char → List Char
  | _, [] => []
  | 0, s => s
  | fuel + 1, c :: rest =>
    if pat.isPrefixOf (c :: rest) then
      rep ++ listReplaceAux pat rep fuel (rest.drop (pat.length - 1))
    else
      c :: listReplaceAux pat rep fuel rest

/-- Model of Python `s.replace(pat, rep)` for a non-empty `pat`:
replace every non-overlapping occurrence of `pat` in `s` by `rep`,
scanning left to right. -/
def listReplace (pat rep s : List Char) : List Char :=
  listReplaceAux pat rep s.length s

/-- `occursIn pat s` holds when `pat` occurs as a contiguous substring of
`s` (Python `pat in s`). -/
def occursIn (pat : List Char) : List Char → Bool
  | [] => pat.isEmpty
  | c :: rest => pat.isPrefixOf (c :: rest) || occursIn pat rest

/-- Characters removed by Python `str.strip()`: the 29 code points for
which CPython's `str.isspace()` returns true (U+0009-U+000D, U+001C-U+001F,
U+0020, U+0085, U+00A0, U+1680, U+2000-U+200A, U+2028, U+2029, U+202F,
U+205F, U+3000). -/
def pyIsSpace (c : Char) : Bool :=
  (0x09 ≤ c.val && c.val ≤ 0x0d) || c.val == 0x20 ||
  (0x1c ≤ c.val && c.val ≤ 0x1f) || c.val == 0x85 || c.val == 0xa0 ||
  c.val == 0x1680 || (0x2000 ≤ c.val && c.val ≤ 0x200a) ||
  c.val == 0x2028 || c.val == 0x2029 || c.val == 0x202f ||
  c.val == 0x205f || c.val == 0x3000

/-- Model of Python `s.strip()` on the character list. -/
def pyStripList (s : List Char) : List Char :=
  ((s.dropWhile pyIsSpace).reverse.dropWhile pyIsSpace).reverse

/-- Model of Python `s.strip()`. -/
def pyStrip (s : String) : String :=
  (pyStripList s.toList).asString

/-- Pattern of the `j`-th `str.replace` call in `load_news`
(`0 ↦ "[b]"`, `1 ↦ "[/b]"`, `2 ↦ "[i]"`, `3 ↦ "[/i]"`, `4 ↦ "[br]"`,
`5 ↦ "[li]"`). -/
def tagPatN : Nat → List Char
  | 0 => "[b]".toList
  | 1 => "[/b]".toList
  | 2 => "[i]".toList
  | 3 => "[/i]".toList
  | 4 => "[br]".toList
  | _ => "[li]".toList

/-- Replacement of the `j`-th `str.replace` call in `load_news`. -/
def tagRepN : Nat → List Char
  | 0 => "**".toList
  | 1 => "**".toList
  | 2 => "*".toList
  | 3 => "*".toList
  | 4 => "\n".toList
  | _ => "• ".toList

/-- The chain
`text.replace("[b]","**").replace("[/b]","**").replace("[i]","*")
    .replace("[/i]","*").replace("[br]","\n").replace("[li]","• ")`
from `load_news`, on character lists.  The replacements are applied
sequentially, `"[b]"` first. -/
def formatList (s : List Char) : List Char :=
  (List.range 6).foldl (fun acc j => listReplace (tagPatN j) (tagRepN j) acc) s

/-- The Discord-markdown formatting step of `load_news`. -/
def formatNews (text : String) : String :=
  (formatList text.toList).asString

/-- `bot.py` line 24: the fixed admin allow-list. -/
def ADMIN_IDS : List Nat := [1313333441525448704]

/-- The placeholder returned when the file is missing or its stripped
contents are empty. -/
def NO_UPDATES : String := "No updates yet."

/-- `bot.py` lines 28-41 (`load_news`).  The stored file is modelled as
`Option String`: `none` means `open` raises `FileNotFoundError`. -/
def load_news (file : Option String) : String :=
  match file with
  | none => NO_UPDATES
  | some content =>
    let text := if pyStrip content = "" then NO_UPDATES else pyStrip content
    formatNews text

/-- `bot.py` lines 45-47 (`save_news`): truncate and write `text`. -/
def save_news (text : String) (_file : Option String) : Option String :=
  some text

/-- The caller-visible state of a slash-command interaction: whether the
caller has the platform administrator permission, and the caller's id. -/
structure Interaction where
  administrator : Bool
  userId : Nat
deriving DecidableEq

/-- `bot.py` lines 141-150 (`set_news`): returns the ephemeral reply
message and the new file state. -/
def set_news (interaction : Interaction) (text : String) (file : Option String) :
    String × Option String :=
  if !(interaction.administrator || ADMIN_IDS.contains interaction.userId) then
    ("❌ You don’t have permission to use this command.", file)
  else
    ("✅ News updated successfully!", save_news text file)

/-- `bot.py` lines 18-20:
`TOKEN = os.getenv('DISCORD_TOKEN'); if not TOKEN: raise ValueError(...)`.
`none` models an unset variable; `if not TOKEN` is true for `None` and
for the empty string. -/
def startupCheck (token : Option String) : Except String String :=
  match token with
  | none => Except.error "Discord token not found in environment variables!"
  | some t =>
    if t = "" then Except.error "Discord token not found in environment variables!"
    else Except.ok t

/-- Response body of an HTTP route: plain text or a JSON object of
string fields. -/
inductive HttpBody where
  | text : String → HttpBody
  | jsonObj : List (String × String) → HttpBody
deriving DecidableEq

/-- `bot.py` lines 55-57, `@app.route("/")`: returns `"OK", 200`
regardless of the stored file and of the bot connection state. -/
def index (_file : Option String) (_connected : Bool) : HttpBody × Nat :=
  (HttpBody.text "OK", 200)

/-- `bot.py` lines 60-62, `@app.route("/healthz")`: returns
`jsonify(status="ok"), 200` regardless of the stored file and of the bot
connection state. -/
def healthz (_file : Option String) (_connected : Bool) : HttpBody × Nat :=
  (HttpBody.jsonObj [("status", "ok")], 200)

namespace MinimalTennisBot

/-- `MinimalTennisBot/bot.py` line 20. -/
def ADMIN_IDS : List Nat := [1313333441525448704]

/-- `MinimalTennisBot/bot.py` lines 29-34: the same six-replacement
chain. -/
def formatNews (text : String) : String :=
  ((List.range 6).foldl
    (fun acc j => listReplace (tagPatN j) (tagRepN j) acc) text.toList).asString

/-- `MinimalTennisBot/bot.py` lines 24-37 (`load_news`). -/
def load_news (file : Option String) : String :=
  match file with
  | none => "No updates yet."
  | some content =>
    let text := if pyStrip content = "" then "No updates yet." else pyStrip content
    MinimalTennisBot.formatNews text

/-- `MinimalTennisBot/bot.py` lines 41-43 (`save_news`). -/
def save_news (text : String) (_file : Option String) : Option String :=
  some text

/-- `MinimalTennisBot/bot.py` lines 100-109 (`set_news`). -/
def set_news (interaction : Interaction) (text : String) (file : Option String) :
    String × Option String :=
  if !(interaction.administrator || MinimalTennisBot.ADMIN_IDS.contains interaction.userId) then
    ("❌ You don’t have permission to use this command.", file)
  else
    ("✅ News updated successfully!", MinimalTennisBot.save_news text file)

end MinimalTennisBot

/-- The marker, if any, that matches at the current position.  At most
one of the six markers can match at a given position (no marker is a
prefix of another), so the scan order is immaterial. -/
def findTag (s : List Char) : Option (Fin 6) :=
  (List.finRange 6).find? (fun j => (tagPatN j.1).isPrefixOf s)

/-- Specification-side reading of the query path's formatting (C1): a
single left-to-right scan that, at each position, emits the fixed
replacement of the recognized marker starting there (skipping the
marker), and otherwise copies the character unchanged.  This renders
"each recognized marker replaced per a fixed one-to-one mapping, and
all text outside markers passed through unchanged" directly; it is
proved equal to the code's chain of six sequential `str.replace`
calls. -/
def specSubstAux : Nat → List Char → List Char
  | _, [] => []
  | 0, s => s
  | fuel + 1, c :: rest =>
    match findTag (c :: rest) with
    | some j => tagRepN j.1 ++ specSubstAux fuel (rest.drop ((tagPatN j.1).length - 1))
    | none => c :: specSubstAux fuel rest

/-- `specSubstAux` with enough fuel (one unit per scanned position). -/
def specSubst (s : List Char) : List Char :=
  specSubstAux s.length s

/-! # Theorems -/

theorem listReplaceAux_fuel (pat rep : List Char) :
    ∀ (n m : Nat) (s : List Char), s.length ≤ n → s.length ≤ m →
      listReplaceAux pat rep n s = listReplaceAux pat rep m s := by
  intro n
  induction n with
  | zero =>
    intro m s hn _
    have hs : s = [] := List.eq_nil_of_length_eq_zero (Nat.le_zero.mp hn)
    subst hs
    cases m <;> rfl
  | succ n ih =>
    intro m s hn hm
    cases s with
    | nil => cases m <;> rfl
    | cons c rest =>
      have hm1 : 1 ≤ m := le_trans (by simp) hm
      obtain ⟨m', rfl⟩ : ∃ m', m = m' + 1 :=
        ⟨m - 1, by omega⟩
      simp only [listReplaceAux]
      by_cases hpre : pat.isPrefixOf (c :: rest) = true
      · have hn' : (rest.drop (pat.length - 1)).length ≤ n := by
          simp only [List.length_drop, List.length_cons] at hn ⊢; omega
        have hm' : (rest.drop (pat.length - 1)).length ≤ m' := by
          simp only [List.length_drop, List.length_cons] at hm ⊢; omega
        rw [if_pos hpre, if_pos hpre, ih m' _ hn' hm']
      · have hn' : rest.length ≤ n := by
          simp only [List.length_cons] at hn; omega
        have hm' : rest.length ≤ m' := by
          simp only [List.length_cons] at hm; omega
        rw [if_neg hpre, if_neg hpre, ih m' rest hn' hm']

theorem listReplace_nil (pat rep : List Char) : listReplace pat rep [] = [] := rfl

/-- One-step unfolding of `listReplace` on a cons cell. -/
theorem listReplace_cons (pat rep : List Char) (c : Char) (rest : List Char) :
    listReplace pat rep (c :: rest) =
      if pat.isPrefixOf (c :: rest) then
        rep ++ listReplace pat rep (rest.drop (pat.length - 1))
      else
        c :: listReplace pat rep rest := by
  show listReplaceAux pat rep (rest.length + 1) (c :: rest) = _
  simp only [listReplaceAux]
  by_cases hpre : pat.isPrefixOf (c :: rest) = true
  · rw [if_pos hpre, if_pos hpre,
      listReplaceAux_fuel pat rep rest.length (rest.drop (pat.length - 1)).length
        (rest.drop (pat.length - 1)) (by simp [List.length_drop]) le_rfl]
    rfl
  · rw [if_neg hpre, if_neg hpre]
    rfl

theorem isPrefixOf_self_append (l t : List Char) :
    l.isPrefixOf (l ++ t) = true := by
  induction l with
  | nil => simp
  | cons c l ih => simp [List.isPrefixOf, ih]

theorem isPrefixOf_cons_of_ne (a c : Char) (l m : List Char) (h : a ≠ c) :
    (a :: l).isPrefixOf (c :: m) = false := by
  simp [List.isPrefixOf, h]

theorem isPrefixOf_append_total (a : List Char) :
    ∀ (w t : List Char), a.isPrefixOf (w ++ t) = true →
      a.isPrefixOf w = true ∨ w.isPrefixOf a = true := by
  induction a with
  | nil => intro w t _; left; simp
  | cons x a ih =>
    intro w t h
    cases w with
    | nil => right; simp
    | cons c w' =>
      simp only [List.cons_append, List.isPrefixOf, Bool.and_eq_true, beq_iff_eq] at h ⊢
      obtain ⟨hx, hrest⟩ := h
      rcases ih w' t hrest with h1 | h1
      · left; exact ⟨hx, h1⟩
      · right; exact ⟨hx.symm, h1⟩

/-- Consuming one full occurrence of the pattern at the head. -/
theorem listReplace_pat_append (p' : List Char) (rep v : List Char) :
    listReplace ('[' :: p') rep (('[' :: p') ++ v) = rep ++ listReplace ('[' :: p') rep v := by
  rw [List.cons_append, listReplace_cons]
  have hpre : ('[' :: p').isPrefixOf ('[' :: (p' ++ v)) = true :=
    isPrefixOf_self_append ('[' :: p') v
  simp only [hpre, if_true]
  have hdrop : (p' ++ v).drop (('[' :: p').length - 1) = v := by
    simp [List.drop_left]
  rw [hdrop]

/-- A block without `'['` passes through unchanged (every pattern we use
starts with `'['`). -/
theorem listReplace_append_of_not_mem (p' : List Char) (rep : List Char) :
    ∀ (u v : List Char), '[' ∉ u →
      listReplace ('[' :: p') rep (u ++ v) = u ++ listReplace ('[' :: p') rep v := by
  intro u
  induction u with
  | nil => intro v _; simp
  | cons c u' ih =>
    intro v hmem
    have hc : '[' ≠ c := by
      intro h; exact hmem (h ▸ List.mem_cons_self c u')
    have hu' : '[' ∉ u' := fun h => hmem (List.mem_cons_of_mem c h)
    rw [List.cons_append, listReplace_cons]
    rw [if_neg (by rw [isPrefixOf_cons_of_ne '[' c p' (u' ++ v) hc]; simp)]
    rw [ih v hu', List.cons_append]

/-- A string in which the pattern never occurs is left unchanged by one
replacement pass. -/
theorem listReplace_of_not_occursIn (pat rep : List Char) :
    ∀ (s : List Char), occursIn pat s = false → listReplace pat rep s = s := by
  intro s
  induction s with
  | nil => intro _; rfl
  | cons c rest ih =>
    intro hocc
    simp only [occursIn, Bool.or_eq_false_iff] at hocc
    rw [listReplace_cons, if_neg (by rw [hocc.1]; simp), ih hocc.2]

/-- Every pattern of the table starts with `'['` and contains no further
`'['`. -/
theorem tagPat_shape : ∀ k : Fin 6,
    tagPatN k.1 = '[' :: (tagPatN k.1).tail ∧ '[' ∉ (tagPatN k.1).tail := by
  decide

/-- Distinct patterns of the table are never prefixes of one another. -/
theorem tagPat_not_pre : ∀ j k : Fin 6, j ≠ k →
    (tagPatN j.1).isPrefixOf (tagPatN k.1) = false ∧
    (tagPatN k.1).isPrefixOf (tagPatN j.1) = false := by
  decide

/-- The replacements of the table in head-tail form (all non-empty). -/
theorem tagRep_shape : ∀ m : Fin 6,
    tagRepN m.1 = (tagRepN m.1).headD ' ' :: (tagRepN m.1).tail := by
  decide

/-- No replacement's first character occurs in any pattern's tail. -/
theorem tagRep_head_notin_tails : ∀ m i : Fin 6,
    (tagRepN m.1).headD ' ' ∉ (tagPatN i.1).tail := by
  decide

/-- A replacement of the table never meets a pattern of the table: no
pattern is a prefix of a replacement, no replacement is a prefix of a
pattern, and replacements contain no `'['` after their head. -/
theorem tagRep_block_facts : ∀ i j : Fin 6,
    (tagPatN i.1).isPrefixOf (tagRepN j.1) = false ∧
    (tagRepN j.1).isPrefixOf (tagPatN i.1) = false ∧
    '[' ∉ (tagRepN j.1).tail := by
  decide

/-- Pattern lengths are positive. -/
theorem tagPat_len_succ : ∀ j : Fin 6,
    (tagPatN j.1).length = (tagPatN j.1).length - 1 + 1 := by
  decide

theorem tagPat_shape_n (i : Nat) (hi : i < 6) :
    tagPatN i = '[' :: (tagPatN i).tail ∧ '[' ∉ (tagPatN i).tail :=
  tagPat_shape ⟨i, hi⟩

theorem tagPat_not_pre_n (i j : Nat) (hi : i < 6) (hj : j < 6) (hne : i ≠ j) :
    (tagPatN i).isPrefixOf (tagPatN j) = false ∧
    (tagPatN j).isPrefixOf (tagPatN i) = false :=
  tagPat_not_pre ⟨i, hi⟩ ⟨j, hj⟩ (fun h => hne (congrArg Fin.val h))

theorem tagRep_block_facts_n (i j : Nat) (hi : i < 6) (hj : j < 6) :
    (tagPatN i).isPrefixOf (tagRepN j) = false ∧
    (tagRepN j).isPrefixOf (tagPatN i) = false ∧
    '[' ∉ (tagRepN j).tail :=
  tagRep_block_facts ⟨i, hi⟩ ⟨j, hj⟩

/-- A block that is mutually non-prefix with the pattern and `'['`-free
after its head passes through one replacement pass unchanged, whatever
follows it. -/
theorem listReplace_block_append (p' rep w : List Char)
    (hwt : '[' ∉ w.tail)
    (h1 : ('[' :: p').isPrefixOf w = false)
    (h2 : w.isPrefixOf ('[' :: p') = false)
    (v : List Char) :
    listReplace ('[' :: p') rep (w ++ v) = w ++ listReplace ('[' :: p') rep v := by
  cases w with
  | nil => simp
  | cons d w' =>
    rw [List.cons_append, listReplace_cons]
    rw [if_neg ?hm]
    · rw [listReplace_append_of_not_mem p' rep w' v hwt, List.cons_append]
    case hm =>
      intro hpre
      have hpre' : ('[' :: p').isPrefixOf ((d :: w') ++ v) = true := by
        rw [List.cons_append]; exact hpre
      rcases isPrefixOf_append_total ('[' :: p') (d :: w') v hpre' with h | h
      · rw [h1] at h; simp at h
      · rw [h2] at h; simp at h

/-- Pass `i` leaves a different raw tag `j` at the head in place. -/
theorem pass_skip_tag (i j : Nat) (hi : i < 6) (hj : j < 6) (hne : i ≠ j)
    (X : List Char) :
    listReplace (tagPatN i) (tagRepN i) (tagPatN j ++ X)
      = tagPatN j ++ listReplace (tagPatN i) (tagRepN i) X := by
  have hshi := (tagPat_shape_n i hi).1
  have hpp := tagPat_not_pre_n i j hi hj hne
  rw [hshi]
  refine listReplace_block_append (tagPatN i).tail (tagRepN i) (tagPatN j)
    (tagPat_shape_n j hj).2 ?_ ?_ X
  · rw [← hshi]; exact hpp.1
  · rw [← hshi]; exact hpp.2

/-- Pass `i` leaves a replacement block at the head in place. -/
theorem pass_skip_rep (i j : Nat) (hi : i < 6) (hj : j < 6) (X : List Char) :
    listReplace (tagPatN i) (tagRepN i) (tagRepN j ++ X)
      = tagRepN j ++ listReplace (tagPatN i) (tagRepN i) X := by
  have hshi := (tagPat_shape_n i hi).1
  have hrb := tagRep_block_facts_n i j hi hj
  rw [hshi]
  refine listReplace_block_append (tagPatN i).tail (tagRepN i) (tagRepN j)
    hrb.2.2 ?_ ?_ X
  · rw [← hshi]; exact hrb.1
  · rw [← hshi]; exact hrb.2.1

/-- Pass `j` consumes its own tag at the head. -/
theorem pass_consume (j : Nat) (hj : j < 6) (X : List Char) :
    listReplace (tagPatN j) (tagRepN j) (tagPatN j ++ X)
      = tagRepN j ++ listReplace (tagPatN j) (tagRepN j) X := by
  have hs := (tagPat_shape_n j hj).1
  rw [hs]
  exact listReplace_pat_append (tagPatN j).tail (tagRepN j) X

/-- Any pass leaves a head character other than `'['` in place. -/
theorem pass_skip_char (i : Nat) (hi : i < 6) (c : Char) (hc : c ≠ '[')
    (X : List Char) :
    listReplace (tagPatN i) (tagRepN i) (c :: X)
      = c :: listReplace (tagPatN i) (tagRepN i) X := by
  have hs := (tagPat_shape_n i hi).1
  rw [hs, listReplace_cons]
  rw [if_neg (by
    rw [isPrefixOf_cons_of_ne '[' c (tagPatN i).tail X (fun h => hc h.symm)]
    simp)]

/-- If a list avoiding the replacement's head character is not a prefix
of `X`, it is still not a prefix after one replacement pass on `X`. -/
theorem isPrefixOf_listReplace_false (pat : List Char) (r0 : Char) (rep' : List Char) :
    ∀ (X tl : List Char), r0 ∉ tl → tl.isPrefixOf X = false →
      tl.isPrefixOf (listReplace pat (r0 :: rep') X) = false := by
  intro X
  induction X with
  | nil =>
    intro tl _ h
    rw [listReplace_nil]
    exact h
  | cons x X' ih =>
    intro tl hr h
    rw [listReplace_cons]
    by_cases hm : pat.isPrefixOf (x :: X') = true
    · rw [if_pos hm]
      cases tl with
      | nil => simp at h
      | cons t0 tl' =>
        have ht0 : t0 ≠ r0 := by
          intro he
          apply hr
          rw [← he]
          exact List.mem_cons_self t0 tl'
        rw [List.cons_append]
        exact isPrefixOf_cons_of_ne t0 r0 tl' _ ht0
    · rw [if_neg hm]
      cases tl with
      | nil => simp at h
      | cons t0 tl' =>
        by_cases ht : t0 = x
        · subst ht
          have h' : tl'.isPrefixOf X' = false := by
            simpa [List.isPrefixOf] using h
          simpa [List.isPrefixOf] using
            ih tl' (fun hmem => hr (List.mem_cons_of_mem t0 hmem)) h'
        · exact isPrefixOf_cons_of_ne t0 x tl' _ ht

/-- One replacement pass cannot create a new head match: a pattern tail
that is not a prefix of `X` is not a prefix of any pass's output on
`X`. -/
theorem pass_skip_bracket (m : Nat) (hm : m < 6) (i : Fin 6) (X : List Char)
    (h : (tagPatN i.1).tail.isPrefixOf X = false) :
    (tagPatN i.1).tail.isPrefixOf (listReplace (tagPatN m) (tagRepN m) X) = false := by
  rw [show tagRepN m = (tagRepN m).headD ' ' :: (tagRepN m).tail from tagRep_shape ⟨m, hm⟩]
  exact isPrefixOf_listReplace_false (tagPatN m) ((tagRepN m).headD ' ')
    (tagRepN m).tail X (tagPatN i.1).tail (tagRep_head_notin_tails ⟨m, hm⟩ i) h

/-- A pass leaves a leading `'['` in place when its own tail does not
match just after it. -/
theorem pass_cons_bracket (i : Nat) (hi : i < 6) (X : List Char)
    (h : (tagPatN i).tail.isPrefixOf X = false) :
    listReplace (tagPatN i) (tagRepN i) ('[' :: X)
      = '[' :: listReplace (tagPatN i) (tagRepN i) X := by
  have hs := (tagPat_shape_n i hi).1
  rw [hs, listReplace_cons]
  rw [if_neg (by
    intro habs
    simp only [List.isPrefixOf, beq_self_eq_true, Bool.true_and] at habs
    rw [h] at habs
    exact Bool.false_ne_true habs)]

/-- Explicit six-pass form of `formatList`. -/
theorem formatList_expand (s : List Char) :
    formatList s =
      listReplace (tagPatN 5) (tagRepN 5)
        (listReplace (tagPatN 4) (tagRepN 4)
          (listReplace (tagPatN 3) (tagRepN 3)
            (listReplace (tagPatN 2) (tagRepN 2)
              (listReplace (tagPatN 1) (tagRepN 1)
                (listReplace (tagPatN 0) (tagRepN 0) s))))) := rfl

/-- A tag at the head is rewritten to its replacement by the six-pass
chain, and the rest is processed independently. -/
theorem formatList_tag (j : Nat) (hj : j < 6) (t : List Char) :
    formatList (tagPatN j ++ t) = tagRepN j ++ formatList t := by
  interval_cases j
  · rw [formatList_expand, formatList_expand t,
      pass_consume 0 (by omega),
      pass_skip_rep 1 0 (by omega) (by omega),
      pass_skip_rep 2 0 (by omega) (by omega),
      pass_skip_rep 3 0 (by omega) (by omega),
      pass_skip_rep 4 0 (by omega) (by omega),
      pass_skip_rep 5 0 (by omega) (by omega)]
  · rw [formatList_expand, formatList_expand t,
      pass_skip_tag 0 1 (by omega) (by omega) (by omega),
      pass_consume 1 (by omega),
      pass_skip_rep 2 1 (by omega) (by omega),
      pass_skip_rep 3 1 (by omega) (by omega),
      pass_skip_rep 4 1 (by omega) (by omega),
      pass_skip_rep 5 1 (by omega) (by omega)]
  · rw [formatList_expand, formatList_expand t,
      pass_skip_tag 0 2 (by omega) (by omega) (by omega),
      pass_skip_tag 1 2 (by omega) (by omega) (by omega),
      pass_consume 2 (by omega),
      pass_skip_rep 3 2 (by omega) (by omega),
      pass_skip_rep 4 2 (by omega) (by omega),
      pass_skip_rep 5 2 (by omega) (by omega)]
  · rw [formatList_expand, formatList_expand t,
      pass_skip_tag 0 3 (by omega) (by omega) (by omega),
      pass_skip_tag 1 3 (by omega) (by omega) (by omega),
      pass_skip_tag 2 3 (by omega) (by omega) (by omega),
      pass_consume 3 (by omega),
      pass_skip_rep 4 3 (by omega) (by omega),
      pass_skip_rep 5 3 (by omega) (by omega)]
  · rw [formatList_expand, formatList_expand t,
      pass_skip_tag 0 4 (by omega) (by omega) (by omega),
      pass_skip_tag 1 4 (by omega) (by omega) (by omega),
      pass_skip_tag 2 4 (by omega) (by omega) (by omega),
      pass_skip_tag 3 4 (by omega) (by omega) (by omega),
      pass_consume 4 (by omega),
      pass_skip_rep 5 4 (by omega) (by omega)]
  · rw [formatList_expand, formatList_expand t,
      pass_skip_tag 0 5 (by omega) (by omega) (by omega),
      pass_skip_tag 1 5 (by omega) (by omega) (by omega),
      pass_skip_tag 2 5 (by omega) (by omega) (by omega),
      pass_skip_tag 3 5 (by omega) (by omega) (by omega),
      pass_skip_tag 4 5 (by omega) (by omega) (by omega),
      pass_consume 5 (by omega)]

/-- A position where no marker matches contributes its character
unchanged: the head survives all six passes. -/
theorem formatList_nomatch (c : Char) (rest : List Char)
    (hno : ∀ j : Fin 6, (tagPatN j.1).isPrefixOf (c :: rest) = false) :
    formatList (c :: rest) = c :: formatList rest := by
  by_cases hc : c = '['
  · subst hc
    have t0 : ∀ i : Fin 6, (tagPatN i.1).tail.isPrefixOf rest = false := by
      intro i
      have h := hno i
      rw [(tagPat_shape i).1] at h
      simpa [List.isPrefixOf] using h
    have t1 : ∀ i : Fin 6, (tagPatN i.1).tail.isPrefixOf
        (listReplace (tagPatN 0) (tagRepN 0) rest) = false :=
      fun i => pass_skip_bracket 0 (by omega) i rest (t0 i)
    have t2 : ∀ i : Fin 6, (tagPatN i.1).tail.isPrefixOf
        (listReplace (tagPatN 1) (tagRepN 1)
          (listReplace (tagPatN 0) (tagRepN 0) rest)) = false :=
      fun i => pass_skip_bracket 1 (by omega) i _ (t1 i)
    have t3 : ∀ i : Fin 6, (tagPatN i.1).tail.isPrefixOf
        (listReplace (tagPatN 2) (tagRepN 2)
          (listReplace (tagPatN 1) (tagRepN 1)
            (listReplace (tagPatN 0) (tagRepN 0) rest))) = false :=
      fun i => pass_skip_bracket 2 (by omega) i _ (t2 i)
    have t4 : ∀ i : Fin 6, (tagPatN i.1).tail.isPrefixOf
        (listReplace (tagPatN 3) (tagRepN 3)
          (listReplace (tagPatN 2) (tagRepN 2)
            (listReplace (tagPatN 1) (tagRepN 1)
              (listReplace (tagPatN 0) (tagRepN 0) rest)))) = false :=
      fun i => pass_skip_bracket 3 (by omega) i _ (t3 i)
    have t5 : ∀ i : Fin 6, (tagPatN i.1).tail.isPrefixOf
        (listReplace (tagPatN 4) (tagRepN 4)
          (listReplace (tagPatN 3) (tagRepN 3)
            (listReplace (tagPatN 2) (tagRepN 2)
              (listReplace (tagPatN 1) (tagRepN 1)
                (listReplace (tagPatN 0) (tagRepN 0) rest))))) = false :=
      fun i => pass_skip_bracket 4 (by omega) i _ (t4 i)
    rw [formatList_expand, formatList_expand rest,
      pass_cons_bracket 0 (by omega) rest (t0 ⟨0, by omega⟩),
      pass_cons_bracket 1 (by omega) _ (t1 ⟨1, by omega⟩),
      pass_cons_bracket 2 (by omega) _ (t2 ⟨2, by omega⟩),
      pass_cons_bracket 3 (by omega) _ (t3 ⟨3, by omega⟩),
      pass_cons_bracket 4 (by omega) _ (t4 ⟨4, by omega⟩),
      pass_cons_bracket 5 (by omega) _ (t5 ⟨5, by omega⟩)]
  · rw [formatList_expand, formatList_expand rest,
      pass_skip_char 0 (by omega) c hc,
      pass_skip_char 1 (by omega) c hc,
      pass_skip_char 2 (by omega) c hc,
      pass_skip_char 3 (by omega) c hc,
      pass_skip_char 4 (by omega) c hc,
      pass_skip_char 5 (by omega) c hc]

/-- `findTag` semantics: a hit is a prefix match. -/
theorem findTag_some_pre (s : List Char) (j : Fin 6) (h : findTag s = some j) :
    (tagPatN j.1).isPrefixOf s = true := by
  have h2 := List.find?_some h
  simpa using h2

/-- `findTag` semantics: a miss means no marker matches here. -/
theorem findTag_none_pre (s : List Char) (h : findTag s = none) (j : Fin 6) :
    (tagPatN j.1).isPrefixOf s = false := by
  have h2 := List.find?_eq_none.mp h j (List.mem_finRange j)
  cases hx : (tagPatN j.1).isPrefixOf s
  · rfl
  · exact absurd hx h2

/-- A prefix decomposes the list. -/
theorem eq_append_drop_of_isPrefixOf :
    ∀ (a b : List Char), a.isPrefixOf b = true → b = a ++ b.drop a.length := by
  intro a
  induction a with
  | nil => intro b _; simp
  | cons x a ih =>
    intro b h
    cases b with
    | nil => simp [List.isPrefixOf] at h
    | cons y b' =>
      simp only [List.isPrefixOf, Bool.and_eq_true, beq_iff_eq] at h
      obtain ⟨rfl, h2⟩ := h
      simp only [List.length_cons, List.drop_succ_cons, List.cons_append]
      exact congrArg (x :: ·) (ih b' h2)

/-- Unfolding `specSubstAux` at a marker hit. -/
theorem specSubstAux_cons_some (n : Nat) (c : Char) (rest : List Char) (j : Fin 6)
    (h : findTag (c :: rest) = some j) :
    specSubstAux (n + 1) (c :: rest)
      = tagRepN j.1 ++ specSubstAux n (rest.drop ((tagPatN j.1).length - 1)) := by
  simp only [specSubstAux, h]

/-- Unfolding `specSubstAux` at a miss. -/
theorem specSubstAux_cons_none (n : Nat) (c : Char) (rest : List Char)
    (h : findTag (c :: rest) = none) :
    specSubstAux (n + 1) (c :: rest) = c :: specSubstAux n rest := by
  simp only [specSubstAux, h]

/-- The code's six sequential replacement passes compute exactly the
one-pass specification scan, for any sufficient fuel. -/
theorem formatList_eq_specSubstAux :
    ∀ (n : Nat) (s : List Char), s.length ≤ n → formatList s = specSubstAux n s := by
  intro n
  induction n with
  | zero =>
    intro s hs
    have h0 : s = [] := List.eq_nil_of_length_eq_zero (Nat.le_zero.mp hs)
    subst h0
    rfl
  | succ n ih =>
    intro s hs
    cases s with
    | nil => rfl
    | cons c rest =>
      cases hft : findTag (c :: rest) with
      | some j =>
        rw [specSubstAux_cons_some n c rest j hft]
        have hpre := findTag_some_pre (c :: rest) j hft
        have hdec := eq_append_drop_of_isPrefixOf (tagPatN j.1) (c :: rest) hpre
        rw [tagPat_len_succ j, List.drop_succ_cons] at hdec
        rw [hdec, formatList_tag j.1 j.isLt]
        congr 1
        apply ih
        have hd : (rest.drop ((tagPatN j.1).length - 1)).length ≤ rest.length := by
          simp [List.length_drop]
        simp only [List.length_cons] at hs
        omega
      | none =>
        rw [specSubstAux_cons_none n c rest hft,
          formatList_nomatch c rest (findTag_none_pre (c :: rest) hft)]
        congr 1
        apply ih
        simp only [List.length_cons] at hs
        omega

/-- The code's formatting chain equals the specification scan. -/
theorem formatList_eq_specSubst (s : List Char) : formatList s = specSubst s :=
  formatList_eq_specSubstAux s.length s le_rfl

/-! # Claims -/

/-- C1: for every stored file content, the query path `load_news`
returns the stripped (defaulted-if-empty) text with each recognized
marker replaced per the fixed mapping `[b] ↦ **`, `[/b] ↦ **`,
`[i] ↦ *`, `[/i] ↦ *`, `[br] ↦ newline`, `[li] ↦ "• "` — the six
literal substitutions the code performs — and all text outside markers
passed through unchanged: the result equals `specSubst`, the single
left-to-right scan that emits the mapped replacement at each marker
occurrence and copies every other character verbatim.  There is no side
condition: this holds for every stored content. -/
theorem c1_query_replaces_markers (content : String) :
    load_news (some content) =
      (specSubst ((if pyStrip content = "" then NO_UPDATES
        else pyStrip content)).toList).asString := by
  show (formatList ((if pyStrip content = "" then NO_UPDATES
    else pyStrip content)).toList).asString = _
  rw [formatList_eq_specSubst]

/-- C2: the write path persists exactly the caller-supplied string,
replacing any previous content wholesale, with no marker translation at
write time; via `set_news`, an authorized caller's text is stored
verbatim. -/
theorem c2_write_persists_verbatim :
    ∀ (text : String) (file : Option String),
      save_news text file = some text ∧
      ∀ u : Interaction, (u.administrator || ADMIN_IDS.contains u.userId) = true →
        set_news u text file = ("✅ News updated successfully!", some text) := by
  intro text file
  refine ⟨rfl, ?_⟩
  intro u hu
  unfold set_news
  rw [hu]
  rfl

theorem c2_witness :
    set_news ⟨false, 1313333441525448704⟩ "raw [b]text[/b]" (some "old") =
      ("✅ News updated successfully!", some "raw [b]text[/b]") :=
  (c2_write_persists_verbatim "raw [b]text[/b]" (some "old")).2
    ⟨false, 1313333441525448704⟩ (by decide)

/-- C3: a write attempt by a caller without the administrator flag and
whose id is not in `ADMIN_IDS` is rejected with the permission-denied
reply and the stored text is unchanged. -/
theorem c3_unauthorized_write_rejected :
    ∀ (u : Interaction) (text : String) (file : Option String),
      u.administrator = false → ADMIN_IDS.contains u.userId = false →
      set_news u text file = ("❌ You don’t have permission to use this command.", file) := by
  intro u text file h1 h2
  unfold set_news
  rw [h1, h2]
  rfl

theorem c3_witness :
    set_news ⟨false, 42⟩ "hack" (some "news") =
      ("❌ You don’t have permission to use this command.", some "news") :=
  c3_unauthorized_write_rejected ⟨false, 42⟩ "hack" (some "news") rfl (by decide)

/-- C4: the `set_news` authorization predicate is exactly the
disjunction "administrator flag OR id in `ADMIN_IDS`": the write is
accepted (and the text saved) precisely when it holds, and rejected with
the file unchanged otherwise. -/
theorem c4_authorization_is_disjunction :
    ∀ (u : Interaction) (text : String) (file : Option String),
      set_news u text file =
        if u.administrator || ADMIN_IDS.contains u.userId then
          ("✅ News updated successfully!", some text)
        else
          ("❌ You don’t have permission to use this command.", file) := by
  intro u text file
  unfold set_news
  by_cases h : (u.administrator || ADMIN_IDS.contains u.userId) = true
  · rw [h]
    rfl
  · have h' : (u.administrator || ADMIN_IDS.contains u.userId) = false := by
      cases hx : u.administrator || ADMIN_IDS.contains u.userId
      · rfl
      · exact absurd hx h
    rw [h']
    rfl

/-- C5: when the stored file does not exist, `load_news` returns the
fixed placeholder `"No updates yet."` rather than raising. -/
theorem c5_missing_file_placeholder : load_news none = "No updates yet." := rfl

/-- C6: at startup, an absent or empty `DISCORD_TOKEN` raises the fatal
`ValueError`; a non-empty token lets startup proceed. -/
theorem c6_token_required :
    startupCheck none = Except.error "Discord token not found in environment variables!" ∧
    startupCheck (some "") = Except.error "Discord token not found in environment variables!" ∧
    ∀ t : String, t ≠ "" → startupCheck (some t) = Except.ok t := by
  refine ⟨rfl, rfl, ?_⟩
  intro t ht
  simp [startupCheck, ht]

theorem c6_witness : startupCheck (some "token123") = Except.ok "token123" :=
  c6_token_required.2.2 "token123" (by decide)

/-- C7: the health routes return the same fixed success responses for
every state of the stored file and of the bot connection: `/` is always
`("OK", 200)` and `/healthz` always the JSON status object with 200. -/
theorem c7_health_routes_constant :
    ∀ (f1 f2 : Option String) (c1 c2 : Bool),
      index f1 c1 = index f2 c2 ∧ healthz f1 c1 = healthz f2 c2 ∧
      index f1 c1 = (HttpBody.text "OK", 200) ∧
      healthz f1 c1 = (HttpBody.jsonObj [("status", "ok")], 200) :=
  fun _ _ _ _ => ⟨rfl, rfl, rfl, rfl⟩

/-- C8: the two source files implement the same news behaviour:
`load_news`, `save_news` and `set_news` of `bot.py` agree with those of
`MinimalTennisBot/bot.py` on every input. -/
theorem c8_variants_equivalent :
    (∀ file : Option String, load_news file = MinimalTennisBot.load_news file) ∧
    (∀ (text : String) (file : Option String),
      save_news text file = MinimalTennisBot.save_news text file) ∧
    (∀ (u : Interaction) (text : String) (file : Option String),
      set_news u text file = MinimalTennisBot.set_news u text file) := by
  refine ⟨?_, fun _ _ => rfl, fun _ _ _ => rfl⟩
  intro file
  cases file <;> rfl

/-- C9: when the stored file exists but its contents are empty or
whitespace-only, `load_news` also returns the placeholder
`"No updates yet."` — the stripped read result is empty, so the `or`
default fires. -/
theorem c9_whitespace_only_placeholder (content : String)
    (hws : ∀ c ∈ content.toList, pyIsSpace c = true) :
    load_news (some content) = "No updates yet." := by
  have h2 : content.toList.dropWhile pyIsSpace = [] :=
    List.dropWhile_eq_nil_iff.mpr hws
  have h1 : pyStrip content = "" := by
    show (((content.toList.dropWhile pyIsSpace).reverse.dropWhile
      pyIsSpace).reverse).asString = ""
    rw [h2]
    rfl
  show formatNews (if pyStrip content = "" then NO_UPDATES else pyStrip content) = _
  rw [if_pos h1]
  decide

theorem c9_witness : load_news (some "  \x1c\n\t ") = "No updates yet." :=
  c9_whitespace_only_placeholder "  \x1c\n\t " (by decide)

/-- C10: the save-then-load round trip is the identity for every string
that contains none of the six markers, has no leading or trailing
whitespace (`strip` leaves it unchanged) and is non-empty; for a string
with leading whitespace the round trip strips it, so `load ∘ save` is
not the identity in general. -/
theorem c10_roundtrip :
    (∀ (text : String) (file : Option String),
      (∀ j : Fin 6, occursIn (tagPatN j.1) text.toList = false) →
      pyStrip text = text → text ≠ "" →
      load_news (save_news text file) = text) ∧
    load_news (save_news " x" none) = "x" ∧
    load_news (save_news " x" none) ≠ " x" := by
  refine ⟨?_, by decide, by decide⟩
  intro text file hm hstrip hne
  show formatNews (if pyStrip text = "" then NO_UPDATES else pyStrip text) = text
  rw [hstrip, if_neg hne]
  show (formatList text.toList).asString = text
  have h6 : formatList text.toList = text.toList := by
    show (List.range 6).foldl _ _ = _
    rw [show List.range 6 = [0, 1, 2, 3, 4, 5] from rfl]
    simp only [List.foldl_cons, List.foldl_nil]
    rw [listReplace_of_not_occursIn (tagPatN 0) (tagRepN 0) text.toList (hm 0),
      listReplace_of_not_occursIn (tagPatN 1) (tagRepN 1) text.toList (hm 1),
      listReplace_of_not_occursIn (tagPatN 2) (tagRepN 2) text.toList (hm 2),
      listReplace_of_not_occursIn (tagPatN 3) (tagRepN 3) text.toList (hm 3),
      listReplace_of_not_occursIn (tagPatN 4) (tagRepN 4) text.toList (hm 4),
      listReplace_of_not_occursIn (tagPatN 5) (tagRepN 5) text.toList (hm 5)]
  rw [h6, String.asString_toList]

theorem c10_witness : load_news (save_news "hello" (some "old")) = "hello" :=
  c10_roundtrip.1 "hello" (some "old") (by decide) (by decide) (by decide)
